import Mathlib

/-
Verification of the investment backtest tool (etnleveraged.py) against its
specification.

Embedding conventions:
* Python/pandas floating-point prices are modelled as rationals (ℚ); the
  properties at stake are exact algebraic identities, stated below over exact
  arithmetic.  Note that where Python float semantics differ qualitatively
  (division by zero yields inf instead of raising), this is recorded at the
  relevant theorem.
* A pandas DataFrame indexed by date with the yfinance OHLCV columns is a
  list of Bar rows (ascending timestamps) together with an optional derived
  "Investment Value" column; assigning that column mutates the frame, which
  the embedding renders as explicit state passing (the returned frame is the
  new state of the argument).
* Timestamps are day numbers (day 0 = Thursday 1970-01-01).  The pandas
  weekly resampling rule "W" bins days Monday..Sunday and labels each bin
  by its Sunday; weekOf computes the bin index and the label day of bin w
  is 7*w + 3.  resample generates a bin for every calendar week from the
  bin of the earliest index entry to the bin of the latest — including
  in-range weeks holding no rows, whose aggregations first/max/min/last
  yield NaN while sum yields 0.  NaN cells are modelled as none (ℚ has no
  NaN), hence the resampled row type AggBar with Option ℚ price fields.
* tkinter pixel coordinates are integers (ℤ); a tkinter event's x field is
  the pointer position relative to the widget receiving the event, so for a
  pointer at absolute position px over a widget at pos_x it equals
  px - pos_x.
* matplotlib scroll events carry event.button as a string ("up", "down", or
  another button name), event.inaxes (whether a pivot is resolvable inside
  the axes), and the pivot (event.xdata, event.ydata) in data coordinates.
-/

/-- One OHLCV row of the fetched price frame.  Field names follow the
pandas column names used by the source (Open, High, Low, Close, Volume). -/
structure Bar where
  timestamp : Nat
  Open : ℚ
  High : ℚ
  Low : ℚ
  Close : ℚ
  Volume : Nat
deriving DecidableEq, Repr

/-- The price DataFrame: its OHLCV rows plus the optional derived
"Investment Value" column (none = the column has not been assigned). -/
structure DataFrame where
  bars : List Bar
  investment : Option (List ℚ)
deriving DecidableEq, Repr

/-- Constant INITIAL_INVESTMENT = 10000 from the source. -/
def INITIAL_INVESTMENT : ℚ := 10000

/-- Embedding of calculate_investment(data, initial_investment):
buy_price = data['Close'].iloc[0]; stock_value = initial_investment /
buy_price; data['Investment Value'] = stock_value * data['Close'] (an
in-place column assignment, modelled by returning the updated frame); the
function returns (data, buy_price, data['Investment Value'].iloc[-1]).
The iloc[0] access raises IndexError on an empty frame, modelled as none.
Caveat: on buy_price = 0 the Python division of an int by a numpy float
zero yields inf (a RuntimeWarning, not an exception), so the source still
produces a full column; the ℚ model likewise produces a full column there
(with junk values, since ℚ division by zero is total). -/
def calculate_investment (data : DataFrame) (initial_investment : ℚ) :
    Option (DataFrame × ℚ × ℚ) :=
  match data.bars with
  | [] => none
  | b :: rest =>
    let buy_price := b.Close
    let stock_value := initial_investment / buy_price
    let col := stock_value * b.Close :: rest.map (fun x => stock_value * x.Close)
    some ({ data with investment := some col }, buy_price,
          col.getLast (List.cons_ne_nil _ _))

/-- Week-bucket index of a day number under the pandas "W" (= W-SUN) rule:
days Monday..Sunday share a bucket.  Day 0 is a Thursday, so day t belongs
to the bucket ending on Sunday, and (t + 3) / 7 is constant exactly on
Monday..Sunday runs. -/
def weekOf (t : Nat) : Nat := (t + 3) / 7

/-- Membership test of a bar in week bucket w. -/
def inWeek (w : Nat) (x : Bar) : Bool := weekOf x.timestamp == w

/-- One row of the weekly-resampled frame.  The price cells are Option ℚ
because resample('W').agg with first/max/min/last yields NaN on a bin
containing no rows (modelled as none), while 'sum' yields 0 there. -/
structure AggBar where
  timestamp : Nat
  Open : Option ℚ
  High : Option ℚ
  Low : Option ℚ
  Close : Option ℚ
  Volume : Nat
deriving DecidableEq, Repr

/-- Aggregation dictionary applied to one weekly bin: the rows of week w
(in input order, ascending under the precondition) are reduced by Open
'first', High 'max', Low 'min', Close 'last', Volume 'sum'; a bin with no
rows yields the NaN row with volume 0.  Every row is labelled by its
bin's Sunday. -/
def binAgg (bars : List Bar) (w : Nat) : AggBar :=
  match bars.filter (inWeek w) with
  | [] =>
    { timestamp := 7 * w + 3, Open := none, High := none, Low := none,
      Close := none, Volume := 0 }
  | b :: rest =>
    { timestamp := 7 * w + 3
      Open := some b.Open
      High := some ((rest.map (fun x => x.High)).foldl max b.High)
      Low := some ((rest.map (fun x => x.Low)).foldl min b.Low)
      Close := some (((b :: rest).getLast (List.cons_ne_nil _ _)).Close)
      Volume := ((b :: rest).map (fun x => x.Volume)).sum }

/-- Embedding of resample_data(data): data.resample('W').agg({'Open':
'first', 'High': 'max', 'Low': 'min', 'Close': 'last', 'Volume': 'sum'}).
resample('W') generates one weekly bin for every calendar week from the
bin containing the earliest index entry to the bin containing the latest,
so in-range weeks with no rows still contribute a (NaN, volume 0) row; an
empty frame resamples to an empty frame.  Columns not named in the
dictionary (the derived Investment Value) are dropped. -/
def resample_data (bars : List Bar) : List AggBar :=
  match bars with
  | [] => []
  | b :: rest =>
    let w0 := weekOf ((rest.map (fun x => x.timestamp)).foldl min b.timestamp)
    let w1 := weekOf ((rest.map (fun x => x.timestamp)).foldl max b.timestamp)
    (List.range (w1 + 1 - w0)).map (fun i => binAgg (b :: rest) (w0 + i))

/-- The input rows falling in the same week bin as a resampled row. -/
def weekBucket (bars : List Bar) (o : AggBar) : List Bar :=
  bars.filter (inWeek (weekOf o.timestamp))

/-- Precondition on resampler input: timestamps strictly ascending. -/
def Ascending (bars : List Bar) : Prop :=
  bars.Pairwise (fun a b => a.timestamp < b.timestamp)

/-- Current axis bounds of the chart (ax.get_xlim(), ax.get_ylim()). -/
structure Viewport where
  x_min : ℚ
  x_max : ℚ
  y_min : ℚ
  y_max : ℚ
deriving DecidableEq, Repr

/-- Embedding of the source's scale_factor expression: 1.1 if
event.button == 'up' else 0.9 if event.button == 'down' else 1. -/
def scale_factor (button : String) : ℚ :=
  if button = "up" then 11 / 10 else if button = "down" then 9 / 10 else 1

/-- Per-axis bound update of on_chart_zoom: the new interval is
[pivot - (pivot - old_min) * factor, pivot + (old_max - pivot) * factor]. -/
def zoom_axis (old_min old_max pivot factor : ℚ) : ℚ × ℚ :=
  (pivot - (pivot - old_min) * factor, pivot + (old_max - pivot) * factor)

/-- Embedding of on_chart_zoom(event): if event.inaxes is falsy the handler
returns without touching the bounds; otherwise both axes are rescaled
independently about the pivot (event.xdata, event.ydata) by scale_factor of
event.button. -/
def on_chart_zoom (inaxes : Bool) (vp : Viewport) (xdata ydata : ℚ)
    (button : String) : Viewport :=
  if inaxes = false then vp
  else
    let f := scale_factor button
    let xb := zoom_axis vp.x_min vp.x_max xdata f
    let yb := zoom_axis vp.y_min vp.y_max ydata f
    { x_min := xb.1, x_max := xb.2, y_min := yb.1, y_max := yb.2 }

/-- State of the draggable widget: its placed position (winfo_x, winfo_y)
and the stored press offset (_drag_start_x, _drag_start_y). -/
structure DragState where
  pos_x : Int
  pos_y : Int
  drag_start_x : Int
  drag_start_y : Int
deriving DecidableEq, Repr

/-- Embedding of on_drag_start(event) for a press at absolute pointer
position (px, py): the handler stores event.x = px - winfo_x and
event.y = py - winfo_y as the drag-start offsets. -/
def on_drag_start (s : DragState) (px py : Int) : DragState :=
  { s with drag_start_x := px - s.pos_x, drag_start_y := py - s.pos_y }

/-- Embedding of on_drag_motion(event) for a sample at absolute pointer
position (px, py): x = winfo_x - _drag_start_x + event.x with
event.x = px - winfo_x (pointer relative to the widget's current
position), then widget.place(x, y). -/
def on_drag_motion (s : DragState) (px py : Int) : DragState :=
  { s with
      pos_x := s.pos_x - s.drag_start_x + (px - s.pos_x)
      pos_y := s.pos_y - s.drag_start_y + (py - s.pos_y) }

/-- One complete drag gesture: a press at absolute pointer position press,
followed by motion samples at the given absolute pointer positions. -/
def dragRun (s : DragState) (press : Int × Int) (moves : List (Int × Int)) :
    DragState :=
  moves.foldl (fun st m => on_drag_motion st m.1 m.2)
    (on_drag_start s press.1 press.2)

/-- Observable outcome of one backtest_stock() invocation. -/
inductive BacktestOutcome where
  | cancelled : BacktestOutcome
  | emptyData : String → BacktestOutcome
  | displayed : String → ℚ → ℚ → ℚ → List AggBar → BacktestOutcome
deriving DecidableEq, Repr

/-- Embedding of backtest_stock(): ticker is the dialog result (none or
empty string = cancel, handled by the `if not ticker` guard); fetched is
the frame returned by the external fetch_data adapter.  On an empty frame
the handler writes "No data found for {ticker}." and returns before
calculate_investment is ever reached; otherwise it runs the calculator and
displays the results together with the weekly resampling of the augmented
frame (display_chart resamples the frame calculate_investment returned). -/
def backtest_stock (ticker : Option String) (fetched : List Bar) :
    BacktestOutcome :=
  match ticker with
  | none => BacktestOutcome.cancelled
  | some t =>
    if t = "" then BacktestOutcome.cancelled
    else
      match fetched with
      | [] => BacktestOutcome.emptyData ("No data found for " ++ t ++ ".")
      | b :: rest =>
        match calculate_investment { bars := b :: rest, investment := none }
            INITIAL_INVESTMENT with
        | none => BacktestOutcome.cancelled
        | some (frame, buy_price, final_value) =>
          BacktestOutcome.displayed t INITIAL_INVESTMENT buy_price final_value
            (resample_data frame.bars)

/-- The Sunday label of bucket w lies in bucket w. -/
lemma weekOf_label (w : Nat) : weekOf (7 * w + 3) = w := by
  show (7 * w + 3 + 3) / 7 = w
  rw [Nat.add_assoc, Nat.mul_add_div (by norm_num)]
  simp

/-- Folding max over a list yields either the seed or a list element. -/
lemma foldl_max_eq_or_mem (l : List ℚ) :
    ∀ a : ℚ, l.foldl max a = a ∨ l.foldl max a ∈ l := by
  induction l with
  | nil => intro a; left; rfl
  | cons x xs ih =>
    intro a
    rw [List.foldl_cons]
    rcases ih (max a x) with h | h
    · rcases le_total a x with hax | hxa
      · right; rw [h, max_eq_right hax]; exact List.mem_cons_self _ _
      · left; rw [h, max_eq_left hxa]
    · right; exact List.mem_cons_of_mem _ h

/-- Folding max over a list bounds the seed and every element. -/
lemma le_foldl_max (l : List ℚ) :
    ∀ a x : ℚ, x = a ∨ x ∈ l → x ≤ l.foldl max a := by
  induction l with
  | nil =>
    intro a x h
    rcases h with rfl | h
    · exact le_refl _
    · simp at h
  | cons y ys ih =>
    intro a x h
    rw [List.foldl_cons]
    rcases h with rfl | h
    · exact le_trans (le_max_left x y) (ih _ _ (Or.inl rfl))
    · rcases List.mem_cons.mp h with rfl | h2
      · exact le_trans (le_max_right a x) (ih _ _ (Or.inl rfl))
      · exact ih _ _ (Or.inr h2)

/-- Folding min over a list yields either the seed or a list element. -/
lemma foldl_min_eq_or_mem (l : List ℚ) :
    ∀ a : ℚ, l.foldl min a = a ∨ l.foldl min a ∈ l := by
  induction l with
  | nil => intro a; left; rfl
  | cons x xs ih =>
    intro a
    rw [List.foldl_cons]
    rcases ih (min a x) with h | h
    · rcases le_total a x with hax | hxa
      · left; rw [h, min_eq_left hax]
      · right; rw [h, min_eq_right hxa]; exact List.mem_cons_self _ _
    · right; exact List.mem_cons_of_mem _ h

/-- Folding min over a list is below the seed and every element. -/
lemma foldl_min_le (l : List ℚ) :
    ∀ a x : ℚ, x = a ∨ x ∈ l → l.foldl min a ≤ x := by
  induction l with
  | nil =>
    intro a x h
    rcases h with rfl | h
    · exact le_refl _
    · simp at h
  | cons y ys ih =>
    intro a x h
    rw [List.foldl_cons]
    rcases h with rfl | h
    · exact le_trans (ih _ _ (Or.inl rfl)) (min_le_left x y)
    · rcases List.mem_cons.mp h with rfl | h2
      · exact le_trans (ih _ _ (Or.inl rfl)) (min_le_right a x)
      · exact ih _ _ (Or.inr h2)

/-- Motion samples leave the stored press offset untouched and always place
the widget at the current pointer position minus that offset. -/
lemma foldl_motion_spec :
    ∀ (moves : List (Int × Int)) (s : DragState) (h : moves ≠ []),
      (moves.foldl (fun st m => on_drag_motion st m.1 m.2) s).pos_x
          = (moves.getLast h).1 - s.drag_start_x ∧
      (moves.foldl (fun st m => on_drag_motion st m.1 m.2) s).pos_y
          = (moves.getLast h).2 - s.drag_start_y ∧
      (moves.foldl (fun st m => on_drag_motion st m.1 m.2) s).drag_start_x
          = s.drag_start_x ∧
      (moves.foldl (fun st m => on_drag_motion st m.1 m.2) s).drag_start_y
          = s.drag_start_y := by
  intro moves
  induction moves with
  | nil => intro s h; exact absurd rfl h
  | cons m ms ih =>
    intro s h
    rw [List.foldl_cons]
    cases ms with
    | nil =>
      refine ⟨?_, ?_, rfl, rfl⟩ <;> simp [on_drag_motion, List.getLast]
    | cons m2 ms2 =>
      obtain ⟨h1, h2, h3, h4⟩ := ih (on_drag_motion s m.1 m.2) (List.cons_ne_nil _ _)
      rw [List.getLast_cons (List.cons_ne_nil _ _)]
      exact ⟨by rw [h1]; rfl, by rw [h2]; rfl, by rw [h3]; rfl, by rw [h4]; rfl⟩

/-- The label of every resampled row is the Sunday of its weekly bin. -/
lemma binAgg_timestamp (bars : List Bar) (w : Nat) :
    (binAgg bars w).timestamp = 7 * w + 3 := by
  unfold binAgg
  rcases h : bars.filter (inWeek w) with _ | ⟨c, tl⟩ <;> rfl

/-- The week bucket of a resampled row recovers exactly the rows of its
bin. -/
lemma binAgg_weekBucket (bars : List Bar) (w : Nat) :
    weekBucket bars (binAgg bars w) = bars.filter (inWeek w) := by
  rw [weekBucket, binAgg_timestamp, weekOf_label]

/-- Unfolding of binAgg on an inhabited bin. -/
lemma binAgg_of_filter_cons (bars : List Bar) (w : Nat) (c : Bar)
    (tl : List Bar) (hfil : bars.filter (inWeek w) = c :: tl) :
    binAgg bars w =
      { timestamp := 7 * w + 3
        Open := some c.Open
        High := some ((tl.map (fun x => x.High)).foldl max c.High)
        Low := some ((tl.map (fun x => x.Low)).foldl min c.Low)
        Close := some (((c :: tl).getLast (List.cons_ne_nil _ _)).Close)
        Volume := ((c :: tl).map (fun x => x.Volume)).sum } := by
  unfold binAgg
  rw [hfil]

/-- A resampled row over an inhabited bin aggregates exactly the rows of
its week bucket. -/
lemma binAgg_spec (bars : List Bar) (w : Nat)
    (hne : weekBucket bars (binAgg bars w) ≠ []) :
    (binAgg bars w).Open
        = (weekBucket bars (binAgg bars w)).head?.map (fun x => x.Open) ∧
    (binAgg bars w).Close
        = (weekBucket bars (binAgg bars w)).getLast?.map (fun x => x.Close) ∧
    (binAgg bars w).Volume
        = ((weekBucket bars (binAgg bars w)).map (fun x => x.Volume)).sum ∧
    (∃ hi, (binAgg bars w).High = some hi ∧
        hi ∈ (weekBucket bars (binAgg bars w)).map (fun x => x.High) ∧
        ∀ x ∈ weekBucket bars (binAgg bars w), x.High ≤ hi) ∧
    (∃ lo, (binAgg bars w).Low = some lo ∧
        lo ∈ (weekBucket bars (binAgg bars w)).map (fun x => x.Low) ∧
        ∀ x ∈ weekBucket bars (binAgg bars w), lo ≤ x.Low) := by
  rw [binAgg_weekBucket] at hne ⊢
  obtain ⟨c, tl, hfil⟩ := List.exists_cons_of_ne_nil hne
  rw [binAgg_of_filter_cons bars w c tl hfil, hfil]
  refine ⟨rfl, ?_, rfl, ?_, ?_⟩
  · rw [List.getLast?_eq_getLast (c :: tl) (List.cons_ne_nil _ _)]
    rfl
  · refine ⟨_, rfl, ?_, ?_⟩
    · rcases foldl_max_eq_or_mem (tl.map (fun x => x.High)) c.High with h | h
      · rw [List.map_cons, h]
        exact List.mem_cons_self _ _
      · rw [List.map_cons]
        exact List.mem_cons_of_mem _ h
    · intro x hx
      rcases List.mem_cons.mp hx with rfl | hx2
      · exact le_foldl_max _ _ _ (Or.inl rfl)
      · exact le_foldl_max _ _ _ (Or.inr (List.mem_map_of_mem _ hx2))
  · refine ⟨_, rfl, ?_, ?_⟩
    · rcases foldl_min_eq_or_mem (tl.map (fun x => x.Low)) c.Low with h | h
      · rw [List.map_cons, h]
        exact List.mem_cons_self _ _
      · rw [List.map_cons]
        exact List.mem_cons_of_mem _ h
    · intro x hx
      rcases List.mem_cons.mp hx with rfl | hx2
      · exact foldl_min_le _ _ _ (Or.inl rfl)
      · exact foldl_min_le _ _ _ (Or.inr (List.mem_map_of_mem _ hx2))

/-- Two-bar demo week (Monday day 4 and Tuesday day 5 of the same bin)
used to instantiate the resampler theorems. -/
def demoBars : List Bar := [⟨4, 1, 2, 0, 1, 10⟩, ⟨5, 3, 9, 1, 5, 20⟩]

/-- The weekly row the resampler produces from demoBars. -/
def demoWeekly : AggBar := ⟨10, some 1, some 9, some 0, some 5, 30⟩

/-- Gap series: Monday day 4 (week bin 1) and Monday day 18 (week bin 3);
calendar week bin 2 (days 11..17) contains no bars. -/
def gapBars : List Bar := [⟨4, 1, 2, 0, 1, 10⟩, ⟨18, 7, 8, 6, 7, 5⟩]

/-- The synthetic row the resampler emits for the empty week bin 2 of
gapBars: NaN (none) OHLC cells and volume 0, labelled by that week's
Sunday, day 17. -/
def syntheticRow : AggBar := ⟨17, none, none, none, none, 0⟩

/-- C5 counterexample: on the ascending gap series the resampler output
contains the synthetic week-2 row, whose week bucket holds no input bar
at all, so there is no earliest bar in the bucket whose open it could
carry - its open cell is NaN (none).  The claim as stated is false. -/
theorem C5_counterexample :
    Ascending gapBars ∧ syntheticRow ∈ resample_data gapBars ∧
    weekBucket gapBars syntheticRow = [] ∧ syntheticRow.Open = none := by
  refine ⟨?_, by decide, by decide, rfl⟩
  simp [Ascending, gapBars]

/-- C5 as amended: for every non-empty ascending series, each weekly
output row whose calendar week contains at least one input bar aggregates
exactly the bars of that bucket: open of the earliest (first) bar, close
of the latest (last) bar, summed volume, maximum high and minimum low;
in-range weeks with no bars instead yield the synthetic NaN/0 row (see
the C6 evidence). -/
theorem C5_weekly_aggregation (bars : List Bar) (hasc : Ascending bars)
    (o : AggBar) (ho : o ∈ resample_data bars)
    (hne : weekBucket bars o ≠ []) :
    o.Open = (weekBucket bars o).head?.map (fun x => x.Open) ∧
    o.Close = (weekBucket bars o).getLast?.map (fun x => x.Close) ∧
    o.Volume = ((weekBucket bars o).map (fun x => x.Volume)).sum ∧
    (∃ hi, o.High = some hi ∧
        hi ∈ (weekBucket bars o).map (fun x => x.High) ∧
        ∀ x ∈ weekBucket bars o, x.High ≤ hi) ∧
    (∃ lo, o.Low = some lo ∧
        lo ∈ (weekBucket bars o).map (fun x => x.Low) ∧
        ∀ x ∈ weekBucket bars o, lo ≤ x.Low) := by
  rcases bars with _ | ⟨b, rest⟩
  · simp [resample_data] at ho
  · simp only [resample_data, List.mem_map] at ho
    obtain ⟨i, -, rfl⟩ := ho
    exact binAgg_spec (b :: rest) _ hne

/-- C6 evidence of the code bug: on the ascending gap series the code's
resampler emits three weekly rows, the middle one synthetic for the empty
calendar week 2 (NaN OHLC cells, volume 0, labelled Sunday day 17) even
though no input bar falls in that week, which the claim (and spec section
4.1) say must be omitted. -/
theorem C6_synthetic_empty_week :
    resample_data gapBars
        = [⟨10, some 1, some 2, some 0, some 1, 10⟩, syntheticRow,
           ⟨24, some 7, some 8, some 6, some 7, 5⟩] ∧
    gapBars.filter (inWeek (weekOf syntheticRow.timestamp)) = [] := by
  constructor <;> decide

/-- Two-bar demo frame (closes 4 then 8) used to instantiate the
calculator theorems. -/
def calcBars : List Bar := [⟨0, 4, 4, 4, 4, 1⟩, ⟨1, 8, 8, 8, 8, 1⟩]

/-- C1: on a non-empty series the Investment Calculator takes buy_price
from the first bar's close, derives the single unit count
initial_capital / buy_price, assigns every bar the value
unit_count * close (so value / close is the constant
initial_capital / buy_price wherever close is non-zero), and returns the
last bar's value as final_value. -/
theorem C1_investment_linear (data : DataFrame) (init : ℚ) (b : Bar)
    (rest : List Bar) (h : data.bars = b :: rest) :
    ∃ frame fv, calculate_investment data init = some (frame, b.Close, fv) ∧
      frame.investment
          = some (data.bars.map (fun x => init / b.Close * x.Close)) ∧
      fv = init / b.Close * ((b :: rest).getLast (List.cons_ne_nil _ _)).Close ∧
      ∀ x ∈ data.bars, x.Close ≠ 0 →
        init / b.Close * x.Close / x.Close = init / b.Close := by
  obtain ⟨dbars, dinv⟩ := data
  simp only at h
  subst h
  refine ⟨_, _, rfl, rfl, ?_, ?_⟩
  · exact List.getLast_map (fun x => init / b.Close * x.Close) (b :: rest) (by simp)
  · intro x _ hxc
    exact mul_div_cancel_right₀ _ hxc

/-- C1 witness: the calculator on the two-bar demo frame with capital
10000 buys at 4 and reports the full linear value column. -/
theorem C1_witness :
    ∃ frame fv, calculate_investment ⟨calcBars, none⟩ 10000
        = some (frame, (4 : ℚ), fv) ∧
      frame.investment
          = some (calcBars.map (fun x => (10000 : ℚ) / 4 * x.Close)) := by
  obtain ⟨frame, fv, h1, h2, _, _⟩ :=
    C1_investment_linear ⟨calcBars, none⟩ 10000 ⟨0, 4, 4, 4, 4, 1⟩
      [⟨1, 8, 8, 8, 8, 1⟩] rfl
  exact ⟨frame, fv, h1, h2⟩

/-- C2: contrary to the spec's required DataQualityError, the calculator
has no error path for a zero first close: the Python division of the
integer capital by the numpy float 0.0 yields inf (a RuntimeWarning, not
an exception), an Investment Value is assigned to every bar, and a result
triple is returned.  The model exhibits this: on a series whose first
close is 0 it still returns some result, with buy_price 0 and a
full-length investment column. -/
theorem C2_zero_buy_price_no_error :
    ∃ frame fv,
      calculate_investment ⟨[⟨0, 0, 0, 0, 0, 0⟩, ⟨1, 5, 5, 5, 5, 0⟩], none⟩
          10000 = some (frame, (0 : ℚ), fv) ∧
      ∃ col, frame.investment = some col ∧ col.length = 2 :=
  ⟨_, _, rfl, _, rfl, rfl⟩

/-- C3 counterexample: at bounds [0,100] with pivot 40, neither scroll
direction rescales by the claimed zoom-in factor 1/1.1: scroll-up uses
1.1 (new x_min = -4) and scroll-down uses 0.9 (new x_min = 4), while the
claimed factor would give x_min = 40/11. -/
theorem C3_counterexample :
    (on_chart_zoom true ⟨0, 100, 0, 100⟩ 40 40 "up").x_min
        ≠ 40 - (40 - 0) * (1 / (11 / 10)) ∧
    (on_chart_zoom true ⟨0, 100, 0, 100⟩ 40 40 "down").x_min
        ≠ 40 - (40 - 0) * (1 / (11 / 10)) := by
  constructor <;>
    · simp [on_chart_zoom, scale_factor, zoom_axis]
      norm_num

/-- C3 as amended: the zoom factors actually applied are 1.1 for a
scroll-up gesture and 0.9 for a scroll-down gesture, each axis being
rescaled independently as new_min = pivot - (pivot - old_min) * factor,
new_max = pivot + (old_max - pivot) * factor. -/
theorem C3_amended_factors (vp : Viewport) (x y : ℚ) :
    on_chart_zoom true vp x y "up"
        = ⟨x - (x - vp.x_min) * (11 / 10), x + (vp.x_max - x) * (11 / 10),
           y - (y - vp.y_min) * (11 / 10), y + (vp.y_max - y) * (11 / 10)⟩ ∧
    on_chart_zoom true vp x y "down"
        = ⟨x - (x - vp.x_min) * (9 / 10), x + (vp.x_max - x) * (9 / 10),
           y - (y - vp.y_min) * (9 / 10), y + (vp.y_max - y) * (9 / 10)⟩ := by
  constructor <;> simp [on_chart_zoom, scale_factor, zoom_axis]

/-- C4: for any bounds min < max, pivot strictly inside, and positive
factor, the per-axis zoom update keeps the pivot's relative position in
the viewport unchanged, and for a contracting factor (< 1) the pivot stays
strictly inside the new bounds. -/
theorem C4_pivot_invariance (a b p f : ℚ) (hap : a < p) (hpb : p < b)
    (hf : 0 < f) :
    (p - (zoom_axis a b p f).1) / ((zoom_axis a b p f).2 - (zoom_axis a b p f).1)
        = (p - a) / (b - a) ∧
    (f < 1 → (zoom_axis a b p f).1 < p ∧ p < (zoom_axis a b p f).2) := by
  constructor
  · have e1 : p - (zoom_axis a b p f).1 = (p - a) * f := by
      dsimp only [zoom_axis]
      ring
    have e2 : (zoom_axis a b p f).2 - (zoom_axis a b p f).1 = (b - a) * f := by
      dsimp only [zoom_axis]
      ring
    rw [e1, e2, mul_div_mul_right _ _ (ne_of_gt hf)]
  · intro _
    constructor
    · dsimp only [zoom_axis]
      nlinarith [mul_pos (sub_pos.mpr hap) hf]
    · dsimp only [zoom_axis]
      nlinarith [mul_pos (sub_pos.mpr hpb) hf]

/-- C4 witness: bounds [0,100], pivot 40, zoom-in factor 0.9. -/
theorem C4_witness :
    ((40 : ℚ) - (zoom_axis 0 100 40 (9 / 10)).1)
        / ((zoom_axis 0 100 40 (9 / 10)).2 - (zoom_axis 0 100 40 (9 / 10)).1)
        = ((40 : ℚ) - 0) / (100 - 0) ∧
    ((9 / 10 : ℚ) < 1 → (zoom_axis 0 100 40 (9 / 10)).1 < 40 ∧
        (40 : ℚ) < (zoom_axis 0 100 40 (9 / 10)).2) :=
  C4_pivot_invariance 0 100 40 (9 / 10) (by norm_num) (by norm_num)
    (by norm_num)

/-- C5 witness: the demo week (Mon open 1 high 2 low 0 close 1 vol 10,
Tue open 3 high 9 low 1 close 5 vol 20) resamples to the weekly row with
open 1, high 9, low 0, close 5, volume 30. -/
theorem C5_witness :
    demoWeekly.Open
        = (weekBucket demoBars demoWeekly).head?.map (fun x => x.Open) ∧
    demoWeekly.Close
        = (weekBucket demoBars demoWeekly).getLast?.map (fun x => x.Close) ∧
    demoWeekly.Volume
        = ((weekBucket demoBars demoWeekly).map (fun x => x.Volume)).sum ∧
    (∃ hi, demoWeekly.High = some hi ∧
        hi ∈ (weekBucket demoBars demoWeekly).map (fun x => x.High) ∧
        ∀ x ∈ weekBucket demoBars demoWeekly, x.High ≤ hi) ∧
    (∃ lo, demoWeekly.Low = some lo ∧
        lo ∈ (weekBucket demoBars demoWeekly).map (fun x => x.Low) ∧
        ∀ x ∈ weekBucket demoBars demoWeekly, lo ≤ x.Low) :=
  C5_weekly_aggregation demoBars (by simp [Ascending, demoBars]) demoWeekly
    (by decide) (by decide)

/-- C7: on an empty fetched series the orchestrator reports the
no-data message naming the ticker and returns an outcome carrying no
calculator output (the calculator is never reached); on a non-empty
series it runs the calculator and displays the full result together with
the resampled augmented series. -/
theorem C7_empty_data_signal :
    (∀ t : String, t ≠ "" → backtest_stock (some t) []
        = BacktestOutcome.emptyData ("No data found for " ++ t ++ ".")) ∧
    ∀ (t : String) (bars : List Bar), t ≠ "" → bars ≠ [] →
      ∃ frame buy_price final_value,
        calculate_investment ⟨bars, none⟩ INITIAL_INVESTMENT
            = some (frame, buy_price, final_value) ∧
        backtest_stock (some t) bars
            = BacktestOutcome.displayed t INITIAL_INVESTMENT buy_price
                final_value (resample_data frame.bars) := by
  constructor
  · intro t ht
    simp [backtest_stock, ht]
  · intro t bars ht hb
    rcases bars with _ | ⟨b, rest⟩
    · exact absurd rfl hb
    refine ⟨_, _, _, rfl, ?_⟩
    simp [backtest_stock, calculate_investment, ht]

/-- C7 witness: ticker AAPL with an empty fetch gives the no-data message;
with the demo frame it displays the calculator's result. -/
theorem C7_witness :
    backtest_stock (some "AAPL") []
        = BacktestOutcome.emptyData ("No data found for " ++ "AAPL" ++ ".") ∧
    ∃ frame buy_price final_value,
      calculate_investment ⟨calcBars, none⟩ INITIAL_INVESTMENT
          = some (frame, buy_price, final_value) ∧
      backtest_stock (some "AAPL") calcBars
          = BacktestOutcome.displayed "AAPL" INITIAL_INVESTMENT buy_price
              final_value (resample_data frame.bars) :=
  ⟨C7_empty_data_signal.1 "AAPL" (by simp),
   C7_empty_data_signal.2 "AAPL" calcBars (by simp) (by simp [calcBars])⟩

/-- C8: a drag gesture places the panel at its press-time position plus
the pointer's total displacement since the press, after every motion
sample; the position is recomputed from the stored press offset, never
accumulated, so only the last sample matters. -/
theorem C8_drag_from_press (s : DragState) (press : Int × Int)
    (moves : List (Int × Int)) (h : moves ≠ []) :
    (dragRun s press moves).pos_x
        = s.pos_x + ((moves.getLast h).1 - press.1) ∧
    (dragRun s press moves).pos_y
        = s.pos_y + ((moves.getLast h).2 - press.2) := by
  obtain ⟨h1, h2, _, _⟩ :=
    foldl_motion_spec moves (on_drag_start s press.1 press.2) h
  unfold dragRun
  refine ⟨?_, ?_⟩
  · rw [h1]
    simp only [on_drag_start]
    omega
  · rw [h2]
    simp only [on_drag_start]
    omega

/-- C8 witness: from start position (100, 200), motion samples at deltas
(5,5), (10,10), (3,3) from the press leave the panel at
(100, 200) + (3, 3). -/
theorem C8_witness :
    (dragRun ⟨100, 200, 0, 0⟩ (0, 0) [(5, 5), (10, 10), (3, 3)]).pos_x = 103 ∧
    (dragRun ⟨100, 200, 0, 0⟩ (0, 0) [(5, 5), (10, 10), (3, 3)]).pos_y = 203 := by
  have h := C8_drag_from_press ⟨100, 200, 0, 0⟩ (0, 0)
    [(5, 5), (10, 10), (3, 3)] (by simp)
  exact ⟨h.1.trans (by decide), h.2.trans (by decide)⟩

/-- C9 counterexample: the calculator does mutate its input frame: on the
demo frame the frame it hands back (the post-state of its argument)
differs from the frame passed in, having gained the Investment Value
column. -/
theorem C9_counterexample :
    ∃ out, calculate_investment ⟨calcBars, none⟩ 10000 = some out ∧
      out.1 ≠ ⟨calcBars, none⟩ := by
  refine ⟨_, rfl, fun hcontra => ?_⟩
  have h2 := congrArg DataFrame.investment hcontra
  simp [calculate_investment, calcBars] at h2

/-- C9 as amended: the pipeline never alters the OHLCV rows themselves —
the calculator's in-place update only adds the derived Investment Value
column, leaving the bar series of the frame unchanged. -/
theorem C9_amended_bars_preserved (data : DataFrame) (init : ℚ)
    (out : DataFrame × ℚ × ℚ)
    (h : calculate_investment data init = some out) :
    out.1.bars = data.bars := by
  obtain ⟨dbars, dinv⟩ := data
  rcases dbars with _ | ⟨b, rest⟩
  · simp [calculate_investment] at h
  · simp only [calculate_investment, Option.some.injEq] at h
    subst h
    rfl

/-- C9 witness: on the demo frame the returned frame keeps the input's
bars. -/
theorem C9_witness :
    ∃ out, calculate_investment ⟨calcBars, none⟩ 10000 = some out ∧
      out.1.bars = calcBars :=
  ⟨_, rfl, C9_amended_bars_preserved ⟨calcBars, none⟩ 10000 _ rfl⟩

/-- C10: a scroll gesture whose button is neither "up" nor "down" gets
scale factor 1, and the handler then reassigns exactly the old bounds on
both axes: the viewport is unchanged. -/
theorem C10_other_button_identity (vp : Viewport) (x y : ℚ)
    (button : String) (h1 : button ≠ "up") (h2 : button ≠ "down") :
    on_chart_zoom true vp x y button = vp := by
  obtain ⟨a, b, c, d⟩ := vp
  simp [on_chart_zoom, scale_factor, zoom_axis, h1, h2]

/-- C10 witness: a "left"-button scroll at pivot (40, 40) leaves the
bounds [0,100] x [0,100] untouched. -/
theorem C10_witness :
    on_chart_zoom true ⟨0, 100, 0, 100⟩ 40 40 "left" = ⟨0, 100, 0, 100⟩ :=
  C10_other_button_identity ⟨0, 100, 0, 100⟩ 40 40 "left" (by simp) (by simp)
